import Mathlib

/-!
Verification of the natural-language specification of the `jerelog_parser`
Verilog hierarchy library against a shallow embedding of its source code.

Strings are embedded as `List Char` (`Str`), and the Python string
primitives used by the source (`str.find`, slicing, `str.replace`,
`str.strip`, `str.split`, `str.startswith`, list membership) are embedded
as executable functions on `Str` that reproduce Python's semantics,
including the `-1` sentinel of `find` and its use in index arithmetic.

Loops of the source that are not structurally recursive are embedded with
an explicit fuel argument; fuel exhaustion is mapped to `Option.none` /
an error value, which also models a (reachable) non-terminating loop or an
uncaught `IndexError` in the source.  All definitions are executable so
that concrete runs can be settled by `decide` / `rfl`.
-/

/-- Strings, embedded as lists of characters. -/
abbrev Str := List Char

/-- The character class of Python's `str.strip()` / `\s` (ASCII part). -/
def pyIsSpace (c : Char) : Bool :=
  c = ' ' || c = '\t' || c = '\n' || c = '\r' || c = '\x0b' || c = '\x0c'

/-- Python `s.strip()`: drop leading and trailing whitespace. -/
def pyStrip (s : Str) : Str :=
  ((s.dropWhile pyIsSpace).reverse.dropWhile pyIsSpace).reverse

/-- Index of the first occurrence of `sub` in the haystack, counting from
`i`; `none` when there is no occurrence. -/
def pyFindAux (sub : Str) : Str → Nat → Option Nat
  | hay, i =>
    if sub.isPrefixOf hay then some i
    else
      match hay with
      | [] => none
      | _ :: t => pyFindAux sub t (i + 1)

/-- First occurrence of `sub` in `hay` (`none` when absent). -/
def pyFindN (hay sub : Str) : Option Nat := pyFindAux sub hay 0

/-- Python `hay.find(sub)`: index of the first occurrence, `-1` when absent. -/
def pyFind (hay sub : Str) : Int :=
  match pyFindN hay sub with
  | some n => (n : Int)
  | none => -1

/-- Normalize a Python slice index: negative indices count from the end,
out-of-range indices are clamped. -/
def pyIdxNorm (len : Nat) (i : Int) : Nat :=
  let j : Int := if i < 0 then i + (len : Int) else i
  (max 0 (min j (len : Int))).toNat

/-- Python `s[a:b]`. -/
def pySlice (s : Str) (a b : Int) : Str :=
  (s.take (pyIdxNorm s.length b)).drop (pyIdxNorm s.length a)

/-- Python `s[a:b]` for non-negative indices. -/
def pySliceN (s : Str) (a b : Nat) : Str := (s.take b).drop a

/-- Python `s[a:]`. -/
def pySliceFrom (s : Str) (a : Int) : Str := pySlice s a (s.length : Int)

/-- Worker for `pyReplace`; the fuel is only there to make the recursion
structural, `fuel = s.length` always suffices because every step consumes
at least one character of `s`. -/
def pyReplaceF (old new : Str) : Nat → Str → Str
  | _, [] => []
  | 0, s => s
  | f + 1, c :: rest =>
    if old ≠ [] ∧ old.isPrefixOf (c :: rest) then
      new ++ pyReplaceF old new f (rest.drop (old.length - 1))
    else
      c :: pyReplaceF old new f rest

/-- Python `s.replace(old, new)` (all non-overlapping occurrences, left to
right).  The source never calls it with an empty `old`. -/
def pyReplace (s old new : Str) : Str := pyReplaceF old new s.length s

/-- Python `s.split(sep)` for a one-character separator (keeps empty
pieces; the result is never the empty list). -/
def pySplitOn (sep : Char) : Str → List Str
  | [] => [[]]
  | c :: rest =>
    if c = sep then
      [] :: pySplitOn sep rest
    else
      match pySplitOn sep rest with
      | [] => [[c]]
      | p :: ps => (c :: p) :: ps

/-- Last element of a Python `split`, i.e. `s.split(' ')[-1]`. -/
def pyLastToken (s : Str) : Str := (pySplitOn ' ' s).getLastD []

/-- Python list membership `x in l` for strings. -/
def pyMem (x : Str) (l : List Str) : Bool := l.contains x

/-- Python `==` between a list value and a string value: always `False`
(the source's `` `endprotected`` branch compares the *stack*, a list,
against the defined-variable names, which are strings). -/
def pyEqListStr (stack : List Str) (v : Str) : Bool :=
  let _ := stack
  let _ := v
  false

/-- Result of one `check_ifdefs` call: the (possibly suppressed) line and
the updated `inside_ifdef` / `ifdef_stack` / `verilog_define_variables`
state. -/
structure IfdefResult where
  filtered : Str
  inside : Bool
  stack : List Str
  defined : List Str
deriving DecidableEq, Repr

/-- Embedding of `check_ifdefs` (src/jerelog_parser.py, lines 165-213).
`none` models the uncaught `IndexError` of `ifdef_stack.pop()` on an
empty stack.  The branch order and each branch's computation follow the
source literally; in particular the `` `ifndef`` visibility test runs
*after* the push, and the `` `endprotected`` membership test compares the
whole stack (a list) against the defined names. -/
def check_ifdefs (line : Str) (inside_ifdef : Bool) (ifdef_stack : List Str)
    (verilog_define_variables : List Str) : Option IfdefResult :=
  let temp_line := pyReplace (pyStrip line) ['\t'] [' ']
  if ("\x60ifdef".toList).isPrefixOf temp_line then
    let st := ifdef_stack ++ [pyLastToken temp_line]
    some ⟨[], pyMem (st.getLastD []) verilog_define_variables, st, verilog_define_variables⟩
  else if ("\x60protected".toList).isPrefixOf temp_line then
    let st := ifdef_stack ++ ["protected".toList]
    some ⟨[], pyMem (st.getLastD []) verilog_define_variables, st, verilog_define_variables⟩
  else if ("\x60ifndef".toList).isPrefixOf temp_line then
    let st := ifdef_stack ++ [pyLastToken temp_line]
    some ⟨[], (st.length == 0) && !(pyMem (st.getLastD []) verilog_define_variables),
      st, verilog_define_variables⟩
  else if ("\x60endif".toList).isPrefixOf temp_line then
    match ifdef_stack with
    | [] => none
    | _ :: _ =>
      let st := ifdef_stack.dropLast
      some ⟨[], decide (0 < st.length) && pyMem (st.getLastD []) verilog_define_variables,
        st, verilog_define_variables⟩
  else if ("\x60endprotected".toList).isPrefixOf temp_line then
    match ifdef_stack with
    | [] => none
    | _ :: _ =>
      let st := ifdef_stack.dropLast
      some ⟨[], decide (0 < st.length) && verilog_define_variables.any (pyEqListStr st),
        st, verilog_define_variables⟩
  else if ("\x60else".toList).isPrefixOf temp_line then
    some ⟨[], decide (0 < ifdef_stack.length) &&
        !(pyMem (ifdef_stack.getLastD []) verilog_define_variables),
      ifdef_stack, verilog_define_variables⟩
  else if ("\x60define".toList).isPrefixOf temp_line then
    if inside_ifdef || ifdef_stack.length == 0 then
      let tokens := pySplitOn ' ' temp_line
      if 2 ≤ tokens.length then
        some ⟨[], inside_ifdef, ifdef_stack, verilog_define_variables ++ [tokens.getD 1 []]⟩
      else
        some ⟨[], inside_ifdef, ifdef_stack, verilog_define_variables⟩
    else
      some ⟨[], inside_ifdef, ifdef_stack, verilog_define_variables⟩
  else
    if inside_ifdef || ifdef_stack.length == 0 then
      some ⟨line, inside_ifdef, ifdef_stack, verilog_define_variables⟩
    else
      some ⟨[], inside_ifdef, ifdef_stack, verilog_define_variables⟩

/-- The `//*` to `//` rewriting loop at the top of `get_uncommented`
(lines 130-132).  Each iteration shortens the line, so the caller's fuel
of `length + 1` always suffices and `none` is unreachable. -/
def unblockLoop : Nat → Str → Option Str
  | 0, _ => none
  | f + 1, line =>
    if pyFind line ("//*".toList) != -1 then
      unblockLoop f (pyReplace line ("//*".toList) ("//".toList))
    else some line

/-- The character-scanning loop of `get_uncommented` (lines 134-162),
carrying the cursor `i`, the `block_comment` bit and the accumulated
`out_line`.  The line-comment branch reproduces the source's
`line[i:line[i:].find("//")]` slice literally (the end index is the
*relative* find result). -/
def get_uncommented_go (line : Str) : Nat → Nat → Bool → Str → Option (Str × Bool)
  | 0, _, _, _ => none
  | f + 1, i, block_comment, out_line =>
    if i < line.length then
      let rest := line.drop i
      if block_comment then
        if pyFind rest ("*/".toList) != -1 then
          get_uncommented_go line f ((i : Int) + pyFind rest ("*/".toList) + 2).toNat false out_line
        else
          some (out_line, block_comment)
      else
        if pyFind rest ("/*".toList) != -1 then
          get_uncommented_go line f ((i : Int) + pyFind rest ("/*".toList)).toNat true
            (out_line ++ pySlice line (i : Int) ((i : Int) + pyFind rest ("/*".toList)))
        else
          if pyFind rest ("//".toList) != -1 then
            some (out_line ++ pySlice line (i : Int) (pyFind rest ("//".toList)), block_comment)
          else
            some (out_line ++ rest, block_comment)
    else some (out_line, block_comment)

/-- Embedding of `get_uncommented` (lines 116-163). -/
def get_uncommented (line : Str) (block_comment : Bool) : Option (Str × Bool) :=
  let pre := if !block_comment then unblockLoop (line.length + 1) line else some line
  pre.bind (fun l => get_uncommented_go l (2 * l.length + 4) 0 block_comment [])

/-- The `end_idx` search loop of `get_module_name` (lines 230-240). -/
def get_module_name_loop (line : Str) : Nat → Nat → Nat
  | 0, end_idx => end_idx
  | f + 1, end_idx =>
    let pre := pySliceN line 0 end_idx
    if pyFind pre [' '] != -1 then end_idx
    else if pyFind pre ['\t'] != -1 then end_idx
    else if pyFind pre ['('] != -1 then end_idx
    else if pyFind pre [';'] != -1 then end_idx
    else if pyFind pre ['\n'] != -1 then end_idx
    else if end_idx == line.length then line.length + 1
    else get_module_name_loop line f (end_idx + 1)

/-- Embedding of `get_module_name` (lines 215-245). -/
def get_module_name (line : Str) : Str :=
  let start_idx := pyFind line ("module ".toList) + (("module ".toList).length : Int)
  let line2 := pyStrip (pySliceFrom line start_idx)
  let end_idx := get_module_name_loop line2 (line2.length + 2) 0
  pySlice line2 0 ((end_idx : Int) - 1)

/-- Scan for the matching closer of an already-opened parenthesis group,
depth starting at `depth`; returns the number of characters consumed up
to and including the closer.  `none` models the `IndexError` the source
hits when the group is unbalanced (the inner loops of
`get_one_line_code` index one character at a time, lines 269-277 and
287-295). -/
def scanBalanced : Str → Nat → Option Nat
  | [], _ => none
  | c :: rest, depth =>
    let depth' := if c = ')' then depth - 1 else if c = '(' then depth + 1 else depth
    if depth' == 0 then some 1
    else (scanBalanced rest depth').map (· + 1)

/-- One iteration of the `#(` / `@(` elision loops of
`get_one_line_code`: locate the opener, walk to its balanced closer, and
remove every occurrence of that span (the source deletes it with
`str.replace`). -/
def block_remove_step (opener : Str) (s : Str) : Option Str :=
  match pyFindN s opener with
  | none => none
  | some pos =>
    match scanBalanced (s.drop (pos + opener.length)) 1 with
    | none => none
    | some consumed =>
      some (pyReplace s (pySliceN s pos (pos + opener.length + consumed)) [])

/-- The `while 1` elision loop of `get_one_line_code` (lines 265-281 for
`#(`, lines 283-298 for `@(`).  Every iteration removes at least three
characters, so the caller's fuel of `length + 1` always suffices. -/
def block_remove_loop (opener : Str) : Nat → Str → Option Str
  | 0, _ => none
  | f + 1, s =>
    match pyFindN s opener with
    | none => some s
    | some _ => (block_remove_step opener s).bind (block_remove_loop opener f)

/-- The double-space collapsing loop of `get_one_line_code`
(lines 300-301). -/
def double_space_loop : Nat → Str → Option Str
  | 0, _ => none
  | f + 1, s =>
    if pyFind s ("  ".toList) != -1 then
      double_space_loop f (pyReplace s ("  ".toList) (" ".toList))
    else some s

/-- Embedding of `get_one_line_code` (lines 247-305). -/
def get_one_line_code (module_code : List Str) : Option Str :=
  let s0 := module_code.foldl (fun a l => a ++ l) []
  let s1 := pyReplace s0 ['\n'] [' ']
  let s2 := pyReplace s1 ['\t'] [' ']
  let s3 := pyReplace s2 (", ".toList) (",".toList)
  let s4 := pyReplace s3 ("# (".toList) ("#(".toList)
  (block_remove_loop ("#(".toList) (s4.length + 1) s4).bind fun s5 =>
  (block_remove_loop ("@(".toList) (s5.length + 1) s5).bind fun s6 =>
  double_space_loop (s6.length + 1) s6

/-- Embedding of `get_module_type_name` (lines 307-333): split a
candidate span on its first space into (type, instance name). -/
def get_module_type_name (type_name_string : Str) : Str × Str :=
  let s := pyStrip type_name_string
  let f := pyFind s [' ']
  (pyStrip (pySlice s 0 (f + 1)), pyStrip (pySliceFrom s (f + 1)))

/-- The reserved-word exclusion list (lines 358-375). -/
def invalid_module_names : List Str :=
  ["if".toList, "else".toList, "begin".toList, "end".toList, "case".toList,
   "endcase".toList, "generate".toList, "endgenerate".toList, "initial".toList,
   "wire".toList, "logic".toList, "parameter".toList, "localparam".toList,
   "assign".toList, "always".toList, "always_ff".toList, "for".toList,
   "$display".toList, "$finish".toList, "@".toList]

/-- The candidate-acceptance condition of the instance extractor
(lines 455-474), as a predicate on the split (type, name) pair. -/
def accept_submod (inst_type inst_name : Str) : Bool :=
  let inst_type_name_cat := inst_type ++ inst_name
  (inst_type != ([] : Str)) && (inst_name != ([] : Str)) &&
  !(pyMem inst_type invalid_module_names) && !(pyMem inst_name invalid_module_names) &&
  (pyFind inst_type_name_cat ['='] == -1) &&
  (pyFind inst_type_name_cat [':'] == -1) &&
  (pyFind inst_type_name_cat ['.'] == -1) &&
  (pyFind inst_type_name_cat ['['] == -1) &&
  (pyFind inst_type_name_cat [']'] == -1) &&
  (pyFind inst_type_name_cat ['$'] == -1) &&
  (pyFind inst_type_name_cat ['<'] == -1) &&
  (pyFind inst_type_name_cat ['>'] == -1) &&
  (pyFind inst_type_name_cat [' '] == -1)

/-- One pass of the keyword-stripping `for` loop inside
`save_module_attributes` (lines 443-450): every reserved word is tried
once against the (re-stripped) candidate, advancing `submod_start`. -/
def strip_keywords_pass (code : Str) (submod_end : Nat) (submod_start : Nat) : Nat × Bool :=
  invalid_module_names.foldl
    (fun acc inval_mod_name =>
      let seg := pySliceN code acc.1 submod_end
      if (inval_mod_name ++ [' ']).isPrefixOf (pyStrip seg) then
        (((acc.1 : Int) + pyFind seg (inval_mod_name ++ [' ']) +
            (((inval_mod_name ++ [' ']).length : Nat) : Int)).toNat, true)
      else acc)
    (submod_start, false)

/-- The enclosing `while 1` of the keyword stripping (break when a full
pass matched nothing).  Every matching pass advances `submod_start`, so
the caller's fuel of `code.length + 1` always suffices. -/
def strip_keywords_loop (code : Str) (submod_end : Nat) : Nat → Nat → Option Nat
  | 0, _ => none
  | f + 1, submod_start =>
    let r := strip_keywords_pass code submod_end submod_start
    if r.2 then strip_keywords_loop code submod_end f r.1
    else some r.1

/-- The instance-extraction cursor loop of `save_module_attributes`
(lines 417-484).  `none` models fuel exhaustion, which corresponds to
the source's cursor failing to advance (a reachable infinite loop, e.g.
a trailing parenthesized statement with no later `;`: the source then
computes `i = i + (-1) + 1`). -/
def extract_loop (module code : Str) : Nat → Nat → List (Str × Str) → Option (List (Str × Str))
  | 0, _, _ => none
  | f + 1, i, submod_list =>
    if i < code.length then
      let rest := code.drop i
      if pyFind rest ("module ".toList ++ module) != -1 then
        if pyFind rest [';'] != -1 then
          extract_loop module code f ((i : Int) + pyFind rest [';'] + 1).toNat submod_list
        else
          extract_loop module code f code.length submod_list
      else if pyFind rest ("wire ".toList) == 0 then
        extract_loop module code f ((i : Int) + pyFind rest [';'] + 1).toNat submod_list
      else if pyFind rest ("assign ".toList) == 0 then
        extract_loop module code f ((i : Int) + pyFind rest [';'] + 1).toNat submod_list
      else if pyFind rest ['('] != -1 then
        let submod_end := i + (pyFind rest ['(']).toNat
        match strip_keywords_loop code submod_end (code.length + 1) i with
        | none => none
        | some submod_start =>
          let cand := pySliceN code submod_start submod_end
          let submod_list' :=
            if pyFind cand [';'] == -1 then
              let tn := get_module_type_name cand
              if accept_submod tn.1 tn.2 then submod_list ++ [tn] else submod_list
            else submod_list
          extract_loop module code f ((i : Int) + pyFind rest [';'] + 1).toNat submod_list'
      else
        if pyFind rest [';'] != -1 then
          extract_loop module code f ((i : Int) + pyFind rest [';'] + 1).toNat submod_list
        else
          extract_loop module code f code.length submod_list
    else some submod_list

/-- The `\w` character class of the port regex (ASCII). -/
def isWordChar (c : Char) : Bool := c.isAlphanum || c = '_'

/-- One iteration of the `(?:\s*,\s*\w+)` star of the port regex:
characters consumed, or `none` when the iteration does not match. -/
def port_comma_id (s : Str) : Option Nat :=
  let a := (s.takeWhile pyIsSpace).length
  match s.drop a with
  | ',' :: s2 =>
    let b := (s2.takeWhile pyIsSpace).length
    let w := ((s2.drop b).takeWhile isWordChar).length
    if w == 0 then none else some (a + 1 + b + w)
  | _ => none

/-- Positions reached after each star iteration (relative to the start of
the identifier list), in order; used to realize the engine's
backtracking by one iteration. -/
def port_star_positions (s : Str) : Nat → Nat → List Nat
  | 0, pos => [pos]
  | f + 1, pos =>
    match port_comma_id (s.drop pos) with
    | some d => pos :: port_star_positions s f (pos + d)
    | none => [pos]

/-- The `\s*[;,)]` terminator of the port regex. -/
def port_terminator (s : Str) : Option Nat :=
  let a := (s.takeWhile pyIsSpace).length
  match s.drop a with
  | c :: _ => if c = ';' || c = ',' || c = ')' then some (a + 1) else none
  | [] => none

/-- Match `(\w+(?:\s*,\s*\w+)*)\s*[;,)]` at the start of `s`: (end of the
captured identifier group, end of the whole match).  When the final
terminator fails, the star backtracks exactly one iteration, whose
separating comma then satisfies `[;,)]` (leftmost-greedy semantics of
`re`); no deeper backtracking can succeed because the character classes
involved are disjoint. -/
def port_ids_match (s : Str) : Option (Nat × Nat) :=
  let w := (s.takeWhile isWordChar).length
  if w == 0 then none
  else
    let qs := port_star_positions s (s.length + 1) w
    let qk := qs.getLastD w
    match port_terminator (s.drop qk) with
    | some t => some (qk, qk + t)
    | none =>
      if qs.length ≤ 1 then none
      else
        let qp := qs.dropLast.getLastD w
        match port_terminator (s.drop qp) with
        | some t => some (qp, qp + t)
        | none => none

/-- Match `\s*(?:(\[[^\]]*\])\s*)?` followed by the identifier list at
the start of `s`: (captured bit-range, captured identifier group,
characters consumed). -/
def port_tail_match (s : Str) : Option (Option Str × Str × Nat) :=
  let a := (s.takeWhile pyIsSpace).length
  let s1 := s.drop a
  match s1 with
  | '[' :: brest =>
    let inner := brest.takeWhile (fun c => !(c = ']'))
    match brest.drop inner.length with
    | ']' :: s2 =>
      let b := (s2.takeWhile pyIsSpace).length
      let s3 := s2.drop b
      match port_ids_match s3 with
      | some ge_me =>
        some (some ('[' :: (inner ++ [']'])), s3.take ge_me.1,
          a + 1 + inner.length + 1 + b + ge_me.2)
      | none => none
    | _ => none
  | _ =>
    match port_ids_match s1 with
    | some ge_me => some (none, s1.take ge_me.1, a + ge_me.2)
    | none => none

/-- Match the optional `(?:reg|logic|bit)` qualifier followed by the
tail; a qualifier whose continuation fails backtracks to the
no-qualifier alternative (the three literals are mutually exclusive at a
fixed position). -/
def port_qual_tail (s : Str) : Option (Option Str × Str × Nat) :=
  let tryQ := fun (q : Str) =>
    if q.isPrefixOf s then
      match port_tail_match (s.drop q.length) with
      | some r => some (r.1, r.2.1, q.length + r.2.2)
      | none => none
    else none
  match tryQ ("reg".toList) with
  | some r => some r
  | none =>
    match tryQ ("logic".toList) with
    | some r => some r
    | none =>
      match tryQ ("bit".toList) with
      | some r => some r
      | none => port_tail_match s

/-- Attempt the whole port pattern of `parse_ports` at position `p`
(including the leading `\b` boundary): (direction, bit-range?,
identifier group, end of match). -/
def port_match_at (s : Str) (p : Nat) : Option (Str × Option Str × Str × Nat) :=
  let boundary := p == 0 || !(isWordChar (s.getD (p - 1) ' '))
  if !boundary then none
  else
    let rest := s.drop p
    let dir :=
      if ("input".toList).isPrefixOf rest then some ("input".toList)
      else if ("output".toList).isPrefixOf rest then some ("output".toList)
      else if ("inout".toList).isPrefixOf rest then some ("inout".toList)
      else none
    match dir with
    | none => none
    | some d =>
      let s1 := rest.drop d.length
      let sp := (s1.takeWhile pyIsSpace).length
      if sp == 0 then none
      else
        match port_qual_tail (s1.drop sp) with
        | none => none
        | some r => some (d, r.1, r.2.1, p + d.length + sp + r.2.2)

/-- `re.finditer` over the port pattern: leftmost matches, scanning
resumes at the end of each match.  Every step advances the position, so
the caller's fuel of `length + 2` always suffices. -/
def port_finditer (s : Str) : Nat → Nat → List (Str × Option Str × Str)
  | 0, _ => []
  | f + 1, p =>
    if p ≤ s.length then
      match port_match_at s p with
      | some m => (m.1, m.2.1, m.2.2.1) :: port_finditer s f m.2.2.2
      | none => port_finditer s f (p + 1)
    else []

/-- Embedding of `parse_ports` (lines 335-355). -/
def parse_ports (verilog_text : Str) : List (Str × Str × Str) :=
  (port_finditer verilog_text (verilog_text.length + 2) 0).flatMap
    (fun m =>
      let port_names := (pySplitOn ',' m.2.2).map pyStrip
      let bit_width :=
        match m.2.1 with
        | some bw => pyStrip bw
        | none => []
      port_names.map (fun n => (m.1, n, bit_width)))

/-- Embedding of `save_module_attributes` (lines 377-492): the regex
port pass followed by the instance-extraction scan. -/
def save_module_attributes (module : Str) (one_line_module_code : Str) (fuel : Nat) :
    Option (List (Str × Str × Str) × List (Str × Str × Str) × List (Str × Str)) :=
  let ports := parse_ports one_line_module_code
  let io := ports.foldl
    (fun (acc : List (Str × Str × Str) × List (Str × Str × Str)) p =>
      let acc := if p.1 == ("input".toList) then (acc.1 ++ [p], acc.2) else acc
      let acc := if p.1 == ("output".toList) then (acc.1, acc.2 ++ [p]) else acc
      let acc := if p.1 == ("inout".toList) then (acc.1 ++ [p], acc.2 ++ [p]) else acc
      acc)
    ([], [])
  (extract_loop module one_line_module_code fuel 0 []).map
    (fun submod_list => (io.1, io.2, submod_list))

/-- The `VerilogModule` record (lines 52-75).  Ports are (direction,
name, width) triples, submodules are (type, instance-name) pairs. -/
structure VerilogModule where
  name : Str
  inputs : List (Str × Str × Str)
  outputs : List (Str × Str × Str)
  submodules : List (Str × Str)
  filepath : Str
  linenum : Nat
  startcol : Int
deriving DecidableEq, Repr

/-- The registry globals of the source: `module_list`,
`verilog_modules` and `multi_defined_list` (lines 79-81). -/
structure Registry where
  module_list : List Str
  verilog_modules : List VerilogModule
  multi_defined_list : List (Str × Str × Nat × Int)
deriving DecidableEq, Repr

/-- The per-`endmodule` registry insertion of `parse_verilog`
(lines 579-586): the first definition of a name is parsed and kept,
every later definition only appends one conflict record. -/
def registry_insert (st : Registry) (module : Str) (one_line_module_code : Str)
    (filename : Str) (start_line : Nat) (start_column : Int) (fuel : Nat) : Option Registry :=
  if !(pyMem module st.module_list) then
    match save_module_attributes module one_line_module_code fuel with
    | none => none
    | some r =>
      some { module_list := st.module_list ++ [module],
             verilog_modules := st.verilog_modules ++
               [⟨module, r.1, r.2.1, r.2.2, filename, start_line, start_column⟩],
             multi_defined_list := st.multi_defined_list }
  else
    some { st with multi_defined_list :=
            st.multi_defined_list ++ [(module, filename, start_line, start_column)] }

/-- Re-ingesting a batch of module definitions (name, normalized body,
file, line, column), one `registry_insert` per definition, in order. -/
def ingest_all (fuel : Nat) : Registry → List (Str × Str × Str × Nat × Int) → Option Registry
  | st, [] => some st
  | st, it :: rest =>
    match registry_insert st it.1 it.2.1 it.2.2.1 it.2.2.2.1 it.2.2.2.2 fuel with
    | none => none
    | some st' => ingest_all fuel st' rest

/-- Embedding of `read_module_info` (lines 87-114): the first registered
module with the given name, `None` when absent. -/
def read_module_info (verilog_modules : List VerilogModule) (module_name : Str) :
    Option VerilogModule :=
  verilog_modules.find? (fun m => m.name == module_name)

/-- The per-file parser state of `parse_verilog` (lines 543-553)
together with the process-wide globals it mutates. -/
structure PState where
  active_module : Bool
  block_comment : Bool
  inside_ifdef : Bool
  ifdef_stack : List Str
  verilog_define_variables : List Str
  line_number : Nat
  module_code : List Str
  module : Str
  start_line : Nat
  start_column : Int
  reg : Registry
deriving DecidableEq, Repr

/-- Abort causes of a `parse_verilog` run.  `exit()` and uncaught
exceptions terminate the whole process, so an aborted run yields no
state at all. -/
inductive ParseFatal where
  | endmoduleInIdle
  | unterminatedModule (module : Str)
  | stackUnderflow
  | noFuel
deriving DecidableEq, Repr

/-- One iteration of the per-line loop of `parse_verilog`
(lines 555-600): comment stripping, conditional-compilation filtering,
then the `endmodule` / module-start / in-module dispatch.  The
tautological guard `(line != "") or (line != "\n")` of line 561 is kept
as written. -/
def parse_step (filename : Str) (fuel : Nat) (st : PState) (line : Str) :
    Except ParseFatal PState :=
  let st := { st with line_number := st.line_number + 1 }
  match get_uncommented line st.block_comment with
  | none => .error .noFuel
  | some ub =>
    match check_ifdefs ub.1 st.inside_ifdef st.ifdef_stack st.verilog_define_variables with
    | none => .error .stackUnderflow
    | some r =>
      let st := { st with block_comment := ub.2, inside_ifdef := r.inside,
                          ifdef_stack := r.stack, verilog_define_variables := r.defined }
      let uncommented_line := r.filtered
      if (uncommented_line != ([] : Str)) || (uncommented_line != ['\n']) then
        if pyFind uncommented_line ("endmodule".toList) != -1 then
          if st.active_module == false then .error .endmoduleInIdle
          else
            let module_code := st.module_code ++ [uncommented_line]
            match get_one_line_code module_code with
            | none => .error .noFuel
            | some one_line =>
              match registry_insert st.reg st.module one_line filename
                  st.start_line st.start_column fuel with
              | none => .error .noFuel
              | some reg' =>
                .ok { st with active_module := false, module_code := [], reg := reg' }
        else if (("module ".toList).isPrefixOf (pyStrip uncommented_line)) ||
                (("module\t".toList).isPrefixOf (pyStrip uncommented_line)) ||
                (pyFind uncommented_line (" module ".toList) != -1) then
          let module := get_module_name uncommented_line
          .ok { st with module := module,
                        start_line := st.line_number,
                        start_column := pyFind uncommented_line module + (module.length : Int) + 1,
                        active_module := true,
                        module_code := st.module_code ++ [uncommented_line] }
        else if st.active_module then
          .ok { st with module_code := st.module_code ++ [uncommented_line] }
        else .ok st
      else .ok st

/-- The whole per-line loop: abort on the first fatal error. -/
def parse_lines (filename : Str) (fuel : Nat) : PState → List Str → Except ParseFatal PState
  | st, [] => .ok st
  | st, line :: rest =>
    match parse_step filename fuel st line with
    | .ok st' => parse_lines filename fuel st' rest
    | .error e => .error e

/-- Embedding of the `parse_verilog` loop over a file's lines, plus the
end-of-file check of lines 602-604. -/
def parse_verilog_lines (filename : Str) (fuel : Nat) (st : PState) (lines : List Str) :
    Except ParseFatal PState :=
  match parse_lines filename fuel st lines with
  | .error e => .error e
  | .ok st' =>
    if st'.active_module then .error (.unterminatedModule st'.module)
    else .ok st'

/-- The state at the top of `parse_verilog` with empty globals. -/
def init_pstate : PState :=
  ⟨false, false, false, [], [], 0, [], [], 0, 0, ⟨[], [], []⟩⟩

/-- The hierarchy-path separator (line 77). -/
def seperating_char : Str := ['.']

/-- The `for i_type, i_name in submodules` loop of `report_hierarchy`
(lines 662-667): print one indented line per instance, record the
instance type in `used_module_list`, and (unless the depth limit is
reached) descend via `child`, which is instantiated with the reporter
itself at the next recursion depth. -/
def report_hierarchy_subs
    (child : Str → List Str → List Str → List Str × List Str × List Str)
    (hier_num max_depth : Nat) :
    List (Str × Str) → List Str → List Str → List Str × List Str × List Str
  | [], used_module_list, used_file_list => ([], used_module_list, used_file_list)
  | tn :: rest, used_module_list, used_file_list =>
    let line := List.replicate (hier_num + 1) '\t' ++ tn.2 ++ (" (".toList) ++ tn.1 ++ [')', '\n']
    let um := used_module_list ++ [tn.1]
    let c :=
      if max_depth == 0 || hier_num < max_depth - 1 then child tn.1 um used_file_list
      else ([], um, used_file_list)
    let r := report_hierarchy_subs child hier_num max_depth rest c.2.1 c.2.2
    (line :: (c.1 ++ r.1), r.2)

/-- Embedding of `report_hierarchy` (lines 631-667): the lines written
to the hierarchy output file (header plus one `\t`-indented
`name (type)` line per instance) together with the `used_module_list`
and `used_file_list` accumulators.  The console mirror and the
post-traversal unused-module report go to other sinks.  The fuel bounds
only the recursion depth (the source has no cycle protection). -/
def report_hierarchy_go (verilog_modules : List VerilogModule) :
    Nat → Str → Nat → Bool → Nat → List Str → List Str → List Str × List Str × List Str
  | 0 => fun _ _ _ _ used_module_list used_file_list => ([], used_module_list, used_file_list)
  | f + 1 => fun top_module hier_num report_unused max_depth used_module_list used_file_list =>
    let top_module_info := read_module_info verilog_modules top_module
    let used_module_list :=
      if hier_num == 0 && report_unused then [top_module] else used_module_list
    let header : List Str :=
      if hier_num == 0 then
        (if max_depth != 0 then
          [("INFO : max_depth set to ".toList) ++ (Nat.repr max_depth).toList ++ ['\n', '\n']]
         else []) ++ [top_module ++ ['\n']]
      else []
    match top_module_info with
    | none => (header, used_module_list, used_file_list)
    | some info =>
      let used_file_list :=
        if pyMem info.filepath used_file_list then used_file_list
        else used_file_list ++ [info.filepath]
      let r := report_hierarchy_subs
          (fun t um uf =>
            report_hierarchy_go verilog_modules f t (hier_num + 1) false max_depth um uf)
          hier_num max_depth info.submodules used_module_list used_file_list
      (header ++ r.1, r.2)

/-- The hierarchy-path separator (line 77) is `.`; one level of
`find_all_instances` (lines 707-720): iterate every module's submodule
list in order, and on an exact type match build the path, emit it when
the enclosing module is the search scope, and descend via `child`
(instantiated with the finder itself searching for the enclosing
module's name). -/
def find_all_instances_level (child : Str → Str → List Str)
    (mods : List VerilogModule) (module_type search_module current_path : Str) : List Str :=
  mods.flatMap (fun m =>
    m.submodules.flatMap (fun tn =>
      if tn.1 == module_type then
        let append_path :=
          if current_path == ([] : Str) then tn.2
          else tn.2 ++ seperating_char ++ current_path
        (if m.name == search_module then
           [m.name ++ seperating_char ++ append_path]
         else []) ++
        child m.name append_path
      else []))

/-- Embedding of `find_all_instances` (lines 695-720): the output-file
lines (without trailing newline) of a search for `module_type` below
`search_module`.  The fuel bounds only the recursion depth (the source
has none and can diverge on instantiation cycles). -/
def find_all_instances (verilog_modules : List VerilogModule) (search_module : Str) :
    Nat → Str → Str → List Str
  | 0 => fun _ _ => []
  | f + 1 => fun module_type current_path =>
    find_all_instances_level (fun nt np => find_all_instances verilog_modules search_module f nt np)
      verilog_modules module_type search_module current_path

def spec_special_chars : List Char := ['=', ':', '.', '[', ']', '$', '<', '>', ' ']

/-- Modelled from the spec: the Instance Extractor's acceptance rule as
the specification words it ("both parts are non-empty, neither equals a
reserved keyword, and neither part nor their concatenation contains any
of `= : . [ ] $ < >` or an embedded space"), for comparison against the
source-derived `accept_submod`. -/
def spec_accept_instance (t n : Str) : Bool :=
  (!t.isEmpty) && (!n.isEmpty) &&
  !(invalid_module_names.contains t) && !(invalid_module_names.contains n) &&
  (spec_special_chars.all (fun c => !(t.contains c) && !(n.contains c) && !((t ++ n).contains c)))

set_option maxRecDepth 60000

lemma pyMem_iff (x : Str) (l : List Str) : pyMem x l = true ↔ x ∈ l := by
  simp [pyMem]

/-- C10: on a comment-free line whose trimmed, tab-normalized text starts
with `endif` or `endprotected`, the conditional filter pops the stack;
with an empty stack this is an uncaught `IndexError` (the `none` of the
embedding), so totality of `check_ifdefs` needs every pop to be preceded
by a matching push. -/
theorem claim_C10 :
    (∀ (line : Str) (inside : Bool) (defined : List Str) (rest : Str),
      pyReplace (pyStrip line) ['\t'] [' '] = "\x60endif".toList ++ rest →
      check_ifdefs line inside [] defined = none) ∧
    (∀ (line : Str) (inside : Bool) (defined : List Str) (rest : Str),
      pyReplace (pyStrip line) ['\t'] [' '] = "\x60endprotected".toList ++ rest →
      check_ifdefs line inside [] defined = none) := by
  constructor
  · intro line inside defined rest h
    simp only [check_ifdefs, h]
    simp [List.isPrefixOf]
  · intro line inside defined rest h
    simp only [check_ifdefs, h]
    simp [List.isPrefixOf]

theorem claim_C10_witness :
    pyReplace (pyStrip ("\x60endif".toList)) ['\t'] [' '] = "\x60endif".toList ++ [] ∧
    check_ifdefs ("\x60endif".toList) false [] ["A".toList] = none :=
  ⟨by decide, claim_C10.1 ("\x60endif".toList) false ["A".toList] [] (by decide)⟩

/-- C2 (counterexample): with an empty stack and `FOO` undefined — the
claim's conditions for "active" — processing `` `ifndef FOO`` leaves
visibility inactive. -/
theorem claim_C2_counterexample :
    ¬ (((check_ifdefs ("\x60ifndef FOO".toList) false [] []).map IfdefResult.inside = some true) ↔
       (([] : List Str) = [] ∧ "FOO".toList ∉ ([] : List Str))) := by
  decide

/-- C2 (amended): an `` `ifndef NAME`` line pushes its last token but
always sets visibility to inactive — the source tests the stack's
emptiness only after the push, so the condition can never hold. -/
theorem claim_C2 (line : Str) (inside : Bool) (stack defined : List Str) (rest : Str)
    (h : pyReplace (pyStrip line) ['\t'] [' '] = "\x60ifndef".toList ++ rest) :
    check_ifdefs line inside stack defined =
      some ⟨[], false, stack ++ [pyLastToken (pyReplace (pyStrip line) ['\t'] [' '])], defined⟩ := by
  simp only [check_ifdefs, h]
  simp [List.isPrefixOf]

theorem claim_C2_witness :
    pyReplace (pyStrip ("\x60ifndef FOO".toList)) ['\t'] [' '] =
      "\x60ifndef".toList ++ " FOO".toList ∧
    check_ifdefs ("\x60ifndef FOO".toList) false [] [] =
      some ⟨[], false,
        [] ++ [pyLastToken (pyReplace (pyStrip ("\x60ifndef FOO".toList)) ['\t'] [' '])], []⟩ :=
  ⟨by decide, claim_C2 ("\x60ifndef FOO".toList) false [] [] (" FOO".toList) (by decide)⟩

/-- C4 (counterexample): popping `` `endprotected`` on stack `[X, Y]`
with `X` defined leaves visibility inactive although the new top `X` is
defined, so the two pop directives do not share one rule. -/
theorem claim_C4_counterexample :
    ¬ (((check_ifdefs ("\x60endprotected".toList) false ["X".toList, "Y".toList]
          ["X".toList]).map IfdefResult.inside = some true) ↔
       ((["X".toList, "Y".toList].dropLast ≠ []) ∧
        (["X".toList, "Y".toList].dropLast).getLastD [] ∈ ["X".toList])) := by
  decide

/-- C4 (amended): both directives pop the stack; after `` `endif`` the
visibility is active exactly when the popped stack is non-empty and its
new top is defined, but after `` `endprotected`` the visibility is
always inactive (the source compares the stack itself, not its top,
against the defined names). -/
theorem claim_C4 :
    (∀ (line : Str) (inside : Bool) (defined : List Str) (rest x : Str) (stack : List Str),
      pyReplace (pyStrip line) ['\t'] [' '] = "\x60endif".toList ++ rest →
      (check_ifdefs line inside (x :: stack) defined).map IfdefResult.stack =
          some ((x :: stack).dropLast) ∧
      ((check_ifdefs line inside (x :: stack) defined).map IfdefResult.inside = some true ↔
        ((x :: stack).dropLast ≠ [] ∧ ((x :: stack).dropLast).getLastD [] ∈ defined))) ∧
    (∀ (line : Str) (inside : Bool) (defined : List Str) (rest x : Str) (stack : List Str),
      pyReplace (pyStrip line) ['\t'] [' '] = "\x60endprotected".toList ++ rest →
      (check_ifdefs line inside (x :: stack) defined).map IfdefResult.stack =
          some ((x :: stack).dropLast) ∧
      (check_ifdefs line inside (x :: stack) defined).map IfdefResult.inside = some false) := by
  constructor
  · intro line inside defined rest x stack h
    simp only [check_ifdefs, h]
    simp [List.isPrefixOf, pyMem, List.length_pos]
    intro _
    cases stack <;> simp
  · intro line inside defined rest x stack h
    simp only [check_ifdefs, h]
    simp [List.isPrefixOf, pyEqListStr]

theorem claim_C4_witness :
    pyReplace (pyStrip ("\x60endif".toList)) ['\t'] [' '] = "\x60endif".toList ++ [] ∧
    ((check_ifdefs ("\x60endif".toList) true ["A".toList, "B".toList]
        ["A".toList]).map IfdefResult.inside = some true ↔
      ((["A".toList, "B".toList].dropLast ≠ []) ∧
       (["A".toList, "B".toList].dropLast).getLastD [] ∈ ["A".toList])) :=
  ⟨by decide,
   (claim_C4.1 ("\x60endif".toList) true ["A".toList] [] ("A".toList) ["B".toList] (by decide)).2⟩

/-- C3 (code evaluated at the failing input): on `/*x*/y//z` with no
block comment pending, the stripper returns the empty string — the `y`
that stands before the `//` marker and outside the block comment is
dropped, because line 154 slices `line[i:line[i:].find("//")]` with a
relative end index. -/
theorem claim_C3 :
    get_uncommented ("/*x*/y//z".toList) false = some ([], false) ∧
    (some (([] : Str), false) ≠ some ("y".toList, false)) := by
  decide

lemma pyFindAux_shift (sub : Str) : ∀ (t : Str) (i : Nat),
    pyFindAux sub t i = (pyFindAux sub t 0).map (fun x => x + i) := by
  intro t
  induction t with
  | nil =>
    intro i
    by_cases h : sub.isPrefixOf ([] : Str) <;> simp [pyFindAux, h]
  | cons c rest ih =>
    intro i
    by_cases h : sub.isPrefixOf (c :: rest)
    · simp [pyFindAux, h]
    · rw [pyFindAux, pyFindAux]
      simp only [h, if_false, Bool.false_eq_true]
      rw [ih (i + 1), ih 1]
      cases pyFindAux sub rest 0 <;> simp
      omega

lemma pyFindN_single_none (c : Char) : ∀ (s : Str), pyFindN s [c] = none ↔ c ∉ s := by
  intro s
  induction s with
  | nil => simp [pyFindN, pyFindAux, List.isPrefixOf]
  | cons a rest ih =>
    rw [pyFindN, pyFindAux]
    by_cases h : ([c] : Str).isPrefixOf (a :: rest)
    · have hca : c = a := by simpa [List.isPrefixOf] using h
      simp [h, hca]
    · have hca : ¬ (c = a) := by
        intro hc
        exact h (by simp [List.isPrefixOf, hc])
      rw [if_neg (by simpa using h), pyFindAux_shift]
      rw [pyFindN] at ih
      cases hf : pyFindAux [c] rest 0 with
      | none => simp [hf] at ih ⊢; simp [ih, hca]
      | some v => simp [hf] at ih ⊢; simp [ih, hca]

lemma pyFind_single (s : Str) (c : Char) : (pyFind s [c] == -1) = !(s.contains c) := by
  by_cases h : c ∈ s
  · have hn : ¬ (pyFindN s [c] = none) := by rw [pyFindN_single_none]; simpa
    cases hf : pyFindN s [c] with
    | none => exact absurd hf hn
    | some n =>
      simp [pyFind, hf, h]
  · have hn : pyFindN s [c] = none := (pyFindN_single_none c s).mpr h
    simp [pyFind, hn, h]

lemma str_contains_append (t n : Str) (c : Char) :
    (t ++ n).contains c = (t.contains c || n.contains c) := by
  by_cases ht : c ∈ t <;> by_cases hn : c ∈ n <;>
    simp [List.contains_iff_exists_mem_beq, ht, hn]

lemma accept_submod_iff_spec (t n : Str) :
    (accept_submod t n = true) ↔ (spec_accept_instance t n = true) := by
  unfold accept_submod spec_accept_instance
  simp only [spec_special_chars, List.all_cons, List.all_nil, Bool.and_true, pyFind_single,
    str_contains_append, pyMem, Bool.and_eq_true, Bool.not_eq_true', bne_iff_ne, Ne,
    List.isEmpty_iff, List.isEmpty_eq_false, Bool.not_eq_true, Bool.or_eq_false_iff]
  tauto

/-- C1: the Instance Extractor accepts a split (type, name) candidate
exactly under the specification's conditions (non-empty parts, no
reserved keyword, none of `= : . [ ] $ < >` or a space in either part or
their concatenation); a body `my_adder u_add (...);` yields exactly the
one Instance (`my_adder`, `u_add`), and a body containing
`if (cond) begin` yields none. -/
theorem claim_C1 :
    (∀ (t n : Str), accept_submod t n = true ↔ spec_accept_instance t n = true) ∧
    save_module_attributes ("m".toList) ("my_adder u_add (...);".toList) 50 =
      some ([], [], [("my_adder".toList, "u_add".toList)]) ∧
    save_module_attributes ("m".toList) ("if (cond) begin a; end".toList) 50 =
      some ([], [], []) :=
  ⟨accept_submod_iff_spec, by rfl, by rfl⟩

/-- C6: inserting a module whose name is already registered keeps
`module_list` and `verilog_modules` unchanged and appends exactly one
conflict record (name, file, line, column); consequently re-ingesting
any batch of definitions whose names are all already registered appends
one conflict record per definition and leaves the kept modules
untouched. -/
theorem claim_C6 :
    (∀ (st : Registry) (m code file : Str) (line : Nat) (col : Int) (fuel : Nat),
       m ∈ st.module_list →
       registry_insert st m code file line col fuel =
         some { st with multi_defined_list := st.multi_defined_list ++ [(m, file, line, col)] }) ∧
    (∀ (fuel : Nat) (items : List (Str × Str × Str × Nat × Int)) (st : Registry),
       (∀ it ∈ items, it.1 ∈ st.module_list) →
       ingest_all fuel st items =
         some { st with multi_defined_list := (st.multi_defined_list ++
           items.map (fun it => (it.1, it.2.2.1, it.2.2.2.1, it.2.2.2.2))) }) := by
  have single : ∀ (st : Registry) (m code file : Str) (line : Nat) (col : Int) (fuel : Nat),
      m ∈ st.module_list →
      registry_insert st m code file line col fuel =
        some { st with multi_defined_list := st.multi_defined_list ++ [(m, file, line, col)] } := by
    intro st m code file line col fuel h
    have hm : pyMem m st.module_list = true := (pyMem_iff m st.module_list).mpr h
    simp [registry_insert, hm]
  refine ⟨single, ?_⟩
  intro fuel items
  induction items with
  | nil =>
    intro st _
    simp [ingest_all]
  | cons it rest ih =>
    intro st h
    rw [ingest_all, single st it.1 it.2.1 it.2.2.1 it.2.2.2.1 it.2.2.2.2 fuel
      (h it (List.mem_cons_self it rest))]
    dsimp only
    rw [ih { st with multi_defined_list := (st.multi_defined_list ++
        [(it.1, it.2.2.1, it.2.2.2.1, it.2.2.2.2)]) }
      (fun x hx => h x (List.mem_cons_of_mem it hx))]
    simp

theorem claim_C6_witness :
    ("a".toList ∈ (⟨["a".toList], [], []⟩ : Registry).module_list) ∧
    registry_insert (⟨["a".toList], [], []⟩ : Registry) ("a".toList) [] ("f.v".toList) 3 2 10 =
      some ⟨["a".toList], [], [("a".toList, "f.v".toList, 3, 2)]⟩ :=
  ⟨by decide,
   claim_C6.1 (⟨["a".toList], [], []⟩ : Registry) ("a".toList) [] ("f.v".toList) 3 2 10
     (by decide)⟩

lemma find_all_instances_level_emits (child : Str → Str → List Str)
    (vm : List VerilogModule) (M : VerilogModule) (t n sm : Str)
    (hM : M ∈ vm) (hsub : (t, n) ∈ M.submodules) (hname : M.name = sm) :
    (sm ++ seperating_char ++ n) ∈ find_all_instances_level child vm t sm [] := by
  unfold find_all_instances_level
  refine List.mem_flatMap.mpr ⟨M, hM, ?_⟩
  refine List.mem_flatMap.mpr ⟨(t, n), hsub, ?_⟩
  simp [hname]

/-- C7: whenever a module whose name equals the search scope contains an
instance whose type satisfies the exact-type predicate, the Reverse
Path Finder emits `scope + separator + path` for that instance; in the
two-module scenario where `top` instantiates `leaf` as `u0`, searching
type `leaf` under scope `top` emits exactly `top.u0`. -/
theorem claim_C7 :
    (∀ (vm : List VerilogModule) (f : Nat) (M : VerilogModule) (t n sm : Str),
       0 < f → M ∈ vm → (t, n) ∈ M.submodules → M.name = sm →
       (sm ++ seperating_char ++ n) ∈ find_all_instances vm sm f t []) ∧
    find_all_instances
      [⟨"top".toList, [], [], [("leaf".toList, "u0".toList)], "f.v".toList, 1, 4⟩,
       ⟨"leaf".toList, [], [], [], "g.v".toList, 1, 5⟩]
      ("top".toList) 3 ("leaf".toList) [] = ["top.u0".toList] := by
  constructor
  · intro vm f M t n sm hf hM hsub hname
    match f, hf with
    | f' + 1, _ =>
      rw [find_all_instances]
      exact find_all_instances_level_emits _ vm M t n sm hM hsub hname
  · decide

theorem claim_C7_witness :
    (0 < 2) ∧
    ("top.u0".toList ∈ find_all_instances
       [⟨"top".toList, [], [], [("leaf".toList, "u0".toList)], "f.v".toList, 1, 4⟩]
       ("top".toList) 2 ("leaf".toList) []) :=
  ⟨by decide,
   claim_C7.1 [⟨"top".toList, [], [], [("leaf".toList, "u0".toList)], "f.v".toList, 1, 4⟩] 2
     ⟨"top".toList, [], [], [("leaf".toList, "u0".toList)], "f.v".toList, 1, 4⟩
     ("leaf".toList) ("u0".toList) ("top".toList)
     (by decide) (by decide) (by decide) rfl⟩

/-- C9: an instance whose type has no registered definition is a silent
leaf: the reporter still prints that instance's own line in its parent's
loop, but recursing into the undefined type produces no lines, changes
no accumulator, and raises no error; concretely, a registry holding
only `top` with one instance `u1` of the undefined type `ghost` reports
exactly the header and the single instance line. -/
theorem claim_C9 :
    (∀ (vm : List VerilogModule) (f : Nat) (t : Str) (hier : Nat) (ru : Bool)
       (maxd : Nat) (um uf : List Str),
       1 ≤ hier → read_module_info vm t = none →
       report_hierarchy_go vm f t hier ru maxd um uf = ([], um, uf)) ∧
    report_hierarchy_go
      [⟨"top".toList, [], [], [("ghost".toList, "u1".toList)], "f.v".toList, 1, 4⟩]
      5 ("top".toList) 0 false 0 [] [] =
      (["top\n".toList, "\tu1 (ghost)\n".toList], ["ghost".toList], ["f.v".toList]) := by
  constructor
  · intro vm f t hier ru maxd um uf hhier hnone
    match f with
    | 0 => rw [report_hierarchy_go]
    | f' + 1 =>
      rw [report_hierarchy_go]
      have h0 : (hier == 0) = false := by
        simp
        omega
      simp [hnone, h0]
  · decide

theorem claim_C9_witness :
    (1 ≤ 1) ∧ read_module_info [] ("ghost".toList) = none ∧
    report_hierarchy_go [] 4 ("ghost".toList) 1 false 0 ["x".toList] [] =
      ([], ["x".toList], []) :=
  ⟨by decide, by decide,
   claim_C9.1 [] 4 ("ghost".toList) 1 false 0 ["x".toList] [] (by decide) (by decide)⟩

lemma line_guard_true (u : Str) : ((u != ([] : Str)) || (u != ['\n'])) = true := by
  by_cases h : u = [] <;> simp [h]

/-- C8: a filtered line containing `endmodule` while no module is open
aborts the whole run with a fatal error, and reaching end of file with a
module still open aborts the run with a fatal error; an aborted run
yields no registry at all (the source calls `exit()`), so no partial
module is inserted for the unterminated region. -/
theorem claim_C8 :
    (∀ (filename : Str) (fuel : Nat) (st : PState) (line : Str) (rest : List Str)
       (l1 : Str) (bc : Bool) (r : IfdefResult),
       st.active_module = false →
       get_uncommented line st.block_comment = some (l1, bc) →
       check_ifdefs l1 st.inside_ifdef st.ifdef_stack st.verilog_define_variables = some r →
       pyFind r.filtered ("endmodule".toList) ≠ -1 →
       parse_verilog_lines filename fuel st (line :: rest) = .error .endmoduleInIdle) ∧
    (∀ (filename : Str) (fuel : Nat) (st : PState) (lines : List Str) (st' : PState),
       parse_lines filename fuel st lines = .ok st' →
       st'.active_module = true →
       parse_verilog_lines filename fuel st lines = .error (.unterminatedModule st'.module)) := by
  constructor
  · intro filename fuel st line rest l1 bc r hact hunc hchk hfind
    have hstep : parse_step filename fuel st line = .error .endmoduleInIdle := by
      unfold parse_step
      simp only [hunc]
      simp only [hchk]
      simp only [line_guard_true, if_true]
      have hb : (pyFind r.filtered ("endmodule".toList) != -1) = true := by
        simpa using hfind
      simp [hb, hact]
      intro hcontra
      exact absurd hcontra hfind
    unfold parse_verilog_lines parse_lines
    simp [hstep]
  · intro filename fuel st lines st' hok hact
    unfold parse_verilog_lines
    simp [hok, hact]

theorem claim_C8_witness :
    ((init_pstate).active_module = false) ∧
    get_uncommented ("endmodule".toList) false = some ("endmodule".toList, false) ∧
    check_ifdefs ("endmodule".toList) false [] [] =
      some ⟨"endmodule".toList, false, [], []⟩ ∧
    parse_verilog_lines ("f.v".toList) 10 init_pstate ["endmodule".toList] =
      .error .endmoduleInIdle :=
  ⟨by decide, by decide, by decide,
   claim_C8.1 ("f.v".toList) 10 init_pstate ("endmodule".toList) []
     ("endmodule".toList) false ⟨"endmodule".toList, false, [], []⟩
     (by decide) (by decide) (by decide) (by decide)⟩

lemma pyReplaceF_nil (old new : Str) (f : Nat) : pyReplaceF old new f [] = [] := by
  cases f <;> rfl

lemma pyReplaceF_cons_no_match (old new : Str) (c : Char) (rest : Str) (f : Nat)
    (h : ¬ old.isPrefixOf (c :: rest)) :
    pyReplaceF old new (f + 1) (c :: rest) = c :: pyReplaceF old new f rest := by
  rw [pyReplaceF]
  simp [h]

lemma pyReplaceF_cons_match (old new : Str) (c : Char) (rest : Str) (f : Nat)
    (hold : old ≠ []) (h : old.isPrefixOf (c :: rest)) :
    pyReplaceF old new (f + 1) (c :: rest) =
      new ++ pyReplaceF old new f (rest.drop (old.length - 1)) := by
  rw [pyReplaceF]
  simp [hold, h]

lemma pyReplaceF_prefix_skip (old new : Str) :
    ∀ (pre : Str) (rest : Str) (f : Nat),
      (∀ j, j < pre.length → ¬ old.isPrefixOf ((pre ++ rest).drop j)) →
      pyReplaceF old new (pre.length + f) (pre ++ rest) = pre ++ pyReplaceF old new f rest := by
  intro pre
  induction pre with
  | nil => intro rest f _; simp
  | cons c pre' ih =>
    intro rest f h
    have h0 : ¬ old.isPrefixOf (c :: (pre' ++ rest)) := by
      have := h 0 (by simp)
      simpa using this
    have harith : (c :: pre').length + f = (pre'.length + f) + 1 := by
      simp
      omega
    rw [harith]
    rw [show ((c :: pre') ++ rest) = c :: (pre' ++ rest) from rfl]
    rw [pyReplaceF_cons_no_match old new c (pre' ++ rest) (pre'.length + f) h0]
    rw [ih rest f (fun j hj => by
      have := h (j + 1) (by simpa using Nat.succ_lt_succ hj)
      simpa using this)]
    rfl

lemma pyReplaceF_cons_guard_true (old new : Str) (c : Char) (rest : Str) (f : Nat)
    (h : old ≠ [] ∧ old.isPrefixOf (c :: rest)) :
    pyReplaceF old new (f + 1) (c :: rest) =
      new ++ pyReplaceF old new f (rest.drop (old.length - 1)) := by
  rw [pyReplaceF, if_pos h]

lemma pyReplaceF_cons_guard_false (old new : Str) (c : Char) (rest : Str) (f : Nat)
    (h : ¬ (old ≠ [] ∧ old.isPrefixOf (c :: rest))) :
    pyReplaceF old new (f + 1) (c :: rest) = c :: pyReplaceF old new f rest := by
  rw [pyReplaceF, if_neg h]

lemma pyReplaceF_fuel_eq (old new : Str) :
    ∀ (n : Nat) (s : Str), s.length = n → ∀ (f1 f2 : Nat), n ≤ f1 → n ≤ f2 →
      pyReplaceF old new f1 s = pyReplaceF old new f2 s := by
  intro n
  induction n using Nat.strong_induction_on with
  | _ n ih =>
    intro s hlen f1 f2 h1 h2
    match s with
    | [] => simp [pyReplaceF_nil]
    | c :: rest =>
      have hn : n = rest.length + 1 := by
        simp at hlen
        omega
      cases f1 with
      | zero => omega
      | succ a =>
        cases f2 with
        | zero => omega
        | succ b =>
          by_cases hg : (old ≠ [] ∧ old.isPrefixOf (c :: rest))
          · rw [pyReplaceF_cons_guard_true old new c rest a hg,
              pyReplaceF_cons_guard_true old new c rest b hg]
            congr 1
            have hd : (rest.drop (old.length - 1)).length < n := by
              have := List.length_drop (old.length - 1) rest
              omega
            exact ih _ hd _ rfl a b (by omega) (by omega)
          · rw [pyReplaceF_cons_guard_false old new c rest a hg,
              pyReplaceF_cons_guard_false old new c rest b hg]
            congr 1
            exact ih rest.length (by omega) rest rfl a b (by omega) (by omega)

lemma pyReplace_concat (span pre post : Str) (hspan : span ≠ [])
    (hno : ∀ j, j < pre.length → ¬ span.isPrefixOf ((pre ++ (span ++ post)).drop j)) :
    pyReplace (pre ++ (span ++ post)) span [] = pre ++ pyReplace post span [] := by
  unfold pyReplace
  rw [show (pre ++ (span ++ post)).length = pre.length + (span ++ post).length from by simp]
  rw [pyReplaceF_prefix_skip span [] pre (span ++ post) ((span ++ post).length) hno]
  congr 1
  match span, hspan with
  | c :: stail, _ =>
    rw [show ((c :: stail) ++ post) = c :: (stail ++ post) from rfl]
    rw [show (c :: (stail ++ post)).length = (stail ++ post).length + 1 from by simp]
    rw [pyReplaceF_cons_guard_true (c :: stail) [] c (stail ++ post) ((stail ++ post)).length
      ⟨by simp, List.isPrefixOf_iff_prefix.mpr (by
        rw [show (c :: (stail ++ post)) = (c :: stail) ++ post from rfl]
        exact List.prefix_append _ _)⟩]
    rw [show (c :: stail).length - 1 = stail.length from by simp]
    rw [List.drop_left]
    rw [List.nil_append]
    exact pyReplaceF_fuel_eq (c :: stail) [] post.length post rfl _ _
      (by simp) le_rfl

lemma pyFindAux_cons (sub : Str) (c : Char) (t : Str) (i : Nat) :
    pyFindAux sub (c :: t) i =
      if sub.isPrefixOf (c :: t) then some i else pyFindAux sub t (i + 1) := by
  rw [pyFindAux.eq_def]

lemma pyFindN_cons (sub : Str) (c : Char) (t : Str) :
    pyFindN (c :: t) sub =
      if sub.isPrefixOf (c :: t) then some 0 else (pyFindN t sub).map (fun x => x + 1) := by
  rw [pyFindN, pyFindAux_cons, pyFindAux_shift, pyFindN]

lemma pyFindN_none_no_occ (sub : Str) :
    ∀ (s : Str), pyFindN s sub = none → ∀ j, ¬ sub.isPrefixOf (s.drop j) := by
  intro s
  induction s with
  | nil =>
    intro h j
    rw [pyFindN, pyFindAux] at h
    by_cases hp : sub.isPrefixOf ([] : Str)
    · simp [hp] at h
    · simpa using hp
  | cons c t ih =>
    intro h j
    rw [pyFindN_cons] at h
    by_cases hp : sub.isPrefixOf (c :: t)
    · simp [hp] at h
    · rw [if_neg (by simpa using hp)] at h
      have ht : pyFindN t sub = none := by
        cases hx : pyFindN t sub
        · rfl
        · simp [hx] at h
      match j with
      | 0 => simpa using hp
      | j' + 1 => simpa using ih ht j'

lemma pyFindN_first_at_append (rest : Str) :
    ∀ (pre : Str), pyFindN pre ['#', '('] = none →
      pyFindN (pre ++ '#' :: '(' :: rest) ['#', '('] = some pre.length := by
  intro pre
  induction pre with
  | nil =>
    intro _
    rw [List.nil_append, pyFindN_cons]
    simp [List.isPrefixOf]
  | cons c pre' ih =>
    intro h
    rw [pyFindN_cons] at h
    have hnp : ¬ (['#', '('] : Str).isPrefixOf (c :: pre') := by
      intro hp
      rw [if_pos hp] at h
      simp at h
    have h' : pyFindN pre' ['#', '('] = none := by
      rw [if_neg (by simpa using hnp)] at h
      cases hx : pyFindN pre' ['#', '(']
      · rfl
      · simp [hx] at h
    have hnp2 : ¬ (['#', '('] : Str).isPrefixOf (c :: (pre' ++ '#' :: '(' :: rest)) := by
      intro hp
      match pre', hp with
      | [], hp => simp [List.isPrefixOf] at hp
      | d :: pre'', hp =>
        apply hnp
        have hcd : '#' = c ∧ '(' = d := by
          simpa [List.isPrefixOf] using hp
        simp [List.isPrefixOf, hcd.1.symm, hcd.2.symm]
    rw [show ((c :: pre') ++ '#' :: '(' :: rest) = c :: (pre' ++ '#' :: '(' :: rest) from rfl]
    rw [pyFindN_cons, if_neg (by simpa using hnp2), ih h']
    simp

lemma scanBalanced_exact :
    ∀ (inner post : Str) (d : Nat),
      (∀ k, (inner.take k).count ')' + 1 ≤ (inner.take k).count '(' + d) →
      (inner.count '(' + d = inner.count ')' + 1) →
      scanBalanced (inner ++ ')' :: post) d = some (inner.length + 1) := by
  intro inner
  induction inner with
  | nil =>
    intro post d h1 h2
    have hd : d = 1 := by simpa using h2
    subst hd
    rw [List.nil_append, scanBalanced]
    simp
  | cons c rest ih =>
    intro post d h1 h2
    have hd1 : 1 ≤ d := by
      have := h1 0
      simpa using this
    rw [show ((c :: rest) ++ ')' :: post) = c :: (rest ++ ')' :: post) from rfl]
    rw [scanBalanced]
    by_cases hc1 : c = ')'
    · subst hc1
      have hd2 : 2 ≤ d := by
        have := h1 1
        simp [List.count_cons] at this
        omega
      have h1' : ∀ k, (rest.take k).count ')' + 1 ≤ (rest.take k).count '(' + (d - 1) := by
        intro k
        have := h1 (k + 1)
        simp [List.count_cons] at this
        omega
      have h2' : rest.count '(' + (d - 1) = rest.count ')' + 1 := by
        simp [List.count_cons] at h2
        omega
      have hne : ¬ (d - 1 == 0) = true := by
        simp
        omega
      rw [show (if (')' : Char) = ')' then d - 1 else if (')' : Char) = '(' then d + 1 else d)
          = d - 1 from by simp]
      rw [if_neg hne]
      rw [ih post (d - 1) h1' h2']
      simp
    · by_cases hc2 : c = '('
      · subst hc2
        have h1' : ∀ k, (rest.take k).count ')' + 1 ≤ (rest.take k).count '(' + (d + 1) := by
          intro k
          have := h1 (k + 1)
          simp [List.count_cons] at this
          omega
        have h2' : rest.count '(' + (d + 1) = rest.count ')' + 1 := by
          simp [List.count_cons] at h2
          omega
        have hne : ¬ (d + 1 == 0) = true := by simp
        rw [show (if ('(' : Char) = ')' then d - 1 else if ('(' : Char) = '(' then d + 1 else d)
            = d + 1 from by simp]
        rw [if_neg hne]
        rw [ih post (d + 1) h1' h2']
        simp
      · have h1' : ∀ k, (rest.take k).count ')' + 1 ≤ (rest.take k).count '(' + d := by
          intro k
          have := h1 (k + 1)
          simp [List.count_cons, hc1, hc2] at this
          simpa using this
        have h2' : rest.count '(' + d = rest.count ')' + 1 := by
          simp [List.count_cons, hc1, hc2] at h2
          simpa using h2
        have hne : ¬ (d == 0) = true := by
          simp
          omega
        rw [show (if c = ')' then d - 1 else if c = '(' then d + 1 else d) = d from by
          simp [hc1, hc2]]
        rw [if_neg hne]
        rw [ih post d h1' h2']
        simp

lemma isPrefixOf_two_of_cons (c1 c2 : Char) (t l : Str)
    (h : (c1 :: c2 :: t).isPrefixOf l) : ([c1, c2] : Str).isPrefixOf l := by
  obtain ⟨u, hu⟩ := List.isPrefixOf_iff_prefix.mp h
  rw [← hu]
  simp [List.isPrefixOf]

lemma opener_not_in_left (pre : Str) (h : pyFindN pre ['#', '('] = none) (rest : Str) :
    ∀ j, j < pre.length →
      ¬ (['#', '('] : Str).isPrefixOf ((pre ++ '#' :: '(' :: rest).drop j) := by
  have hpre := pyFindN_none_no_occ ['#', '('] pre h
  intro j hj hp
  have hsplit : (pre ++ '#' :: '(' :: rest).drop j = (pre.drop j) ++ '#' :: '(' :: rest :=
    List.drop_append_of_le_length (le_of_lt hj)
  rw [hsplit] at hp
  cases hd : pre.drop j with
  | nil =>
    have hlen := List.length_drop j pre
    rw [hd] at hlen
    simp at hlen
    omega
  | cons a ptail =>
    rw [hd] at hp
    cases ptail with
    | nil =>
      simp [List.isPrefixOf] at hp
    | cons b ptail2 =>
      have hab : '#' = a ∧ '(' = b := by
        simpa [List.isPrefixOf] using hp
      apply hpre j
      rw [hd]
      simp [List.isPrefixOf, hab.1.symm, hab.2.symm]

lemma block_remove_step_exact (pre inner post : Str)
    (hfind : pyFindN pre ['#', '('] = none)
    (hbal1 : ∀ k, (inner.take k).count ')' ≤ (inner.take k).count '(')
    (hbal2 : inner.count ')' = inner.count '(') :
    block_remove_step ("#(".toList) (pre ++ '#' :: '(' :: (inner ++ ')' :: post)) =
      some (pre ++ pyReplace post ('#' :: '(' :: (inner ++ [')'])) []) := by
  have hop : ("#(".toList : Str) = ['#', '('] := rfl
  have hpos : pyFindN (pre ++ '#' :: '(' :: (inner ++ ')' :: post)) ['#', '('] =
      some pre.length :=
    pyFindN_first_at_append (inner ++ ')' :: post) pre hfind
  have hdrop : (pre ++ '#' :: '(' :: (inner ++ ')' :: post)).drop (pre.length + 2) =
      inner ++ ')' :: post := by
    rw [show (pre ++ '#' :: '(' :: (inner ++ ')' :: post)) =
        (pre ++ ['#', '(']) ++ (inner ++ ')' :: post) from by simp]
    rw [show pre.length + 2 = (pre ++ ['#', '(']).length from by simp]
    exact List.drop_left _ _
  have hscan : scanBalanced (inner ++ ')' :: post) 1 = some (inner.length + 1) := by
    apply scanBalanced_exact
    · intro k
      have := hbal1 k
      omega
    · omega
  have hslice : pySliceN (pre ++ '#' :: '(' :: (inner ++ ')' :: post)) pre.length
      (pre.length + 2 + (inner.length + 1)) = '#' :: '(' :: (inner ++ [')']) := by
    unfold pySliceN
    rw [show (pre ++ '#' :: '(' :: (inner ++ ')' :: post)) =
        (pre ++ '#' :: '(' :: (inner ++ [')'])) ++ post from by simp]
    rw [show pre.length + 2 + (inner.length + 1) =
        (pre ++ '#' :: '(' :: (inner ++ [')'])).length from by simp; omega]
    rw [List.take_left]
    rw [show (pre ++ '#' :: '(' :: (inner ++ [')'])) =
        pre ++ ('#' :: '(' :: (inner ++ [')'])) from rfl]
    exact List.drop_left _ _
  rw [block_remove_step, hop, hpos]
  dsimp only
  simp only [show ((['#', '('] : Str)).length = 2 from rfl]
  rw [hdrop, hscan]
  dsimp only
  rw [hslice]
  have hs2 : (pre ++ '#' :: '(' :: (inner ++ ')' :: post)) =
      pre ++ (('#' :: '(' :: (inner ++ [')'])) ++ post) := by simp
  rw [hs2]
  rw [pyReplace_concat ('#' :: '(' :: (inner ++ [')'])) pre post (by simp)
    (fun j hj hp => by
      have hp2 := isPrefixOf_two_of_cons '#' '(' (inner ++ [')'])
        ((pre ++ ('#' :: '(' :: (inner ++ [')']) ++ post)).drop j) hp
      have := opener_not_in_left pre hfind ((inner ++ [')']) ++ post) j hj
      apply this
      rw [show (pre ++ '#' :: '(' :: ((inner ++ [')']) ++ post)) =
          pre ++ ('#' :: '(' :: (inner ++ [')']) ++ post) from by simp]
      exact hp2)]

lemma block_remove_loop_no_opener (opener : Str) :
    ∀ (f : Nat) (s r : Str),
      block_remove_loop opener f s = some r → pyFindN r opener = none := by
  intro f
  induction f with
  | zero =>
    intro s r h
    simp [block_remove_loop] at h
  | succ f' ih =>
    intro s r h
    rw [block_remove_loop] at h
    cases hx : pyFindN s opener with
    | none =>
      rw [hx] at h
      have : s = r := by simpa using h
      rw [← this]
      exact hx
    | some p =>
      rw [hx] at h
      cases hy : block_remove_step opener s with
      | none => rw [hy] at h; simp at h
      | some s' =>
        rw [hy] at h
        exact ih s' r (by simpa using h)

/-- C5: body normalization's parameter-block elision deletes, at each
step, the entire balanced `#(...)` span from the opener to its matching
closer found by depth tracking (every occurrence of that exact span is
erased, which the one at the opener is), it repeats until the result
contains no `#(`, and normalizing `foo #(WIDTH(8)) bar(...);` yields
exactly `foo bar(...);`. -/
theorem claim_C5 :
    (∀ (pre inner post : Str),
       pyFindN pre ("#(".toList) = none →
       (∀ k, k ≤ inner.length → (inner.take k).count ')' ≤ (inner.take k).count '(') →
       inner.count ')' = inner.count '(' →
       block_remove_step ("#(".toList) (pre ++ '#' :: '(' :: (inner ++ ')' :: post)) =
         some (pre ++ pyReplace post ('#' :: '(' :: (inner ++ [')'])) [])) ∧
    (∀ (f : Nat) (s r : Str),
       block_remove_loop ("#(".toList) f s = some r → pyFindN r ("#(".toList) = none) ∧
    get_one_line_code ["foo #(WIDTH(8)) bar(...);".toList] =
      some ("foo bar(...);".toList) := by
  refine ⟨?_, block_remove_loop_no_opener ("#(".toList), by rfl⟩
  intro pre inner post hfind hbal1 hbal2
  apply block_remove_step_exact pre inner post hfind
  · intro k
    by_cases hk : k ≤ inner.length
    · exact hbal1 k hk
    · rw [List.take_of_length_le (by omega)]
      omega
  · exact hbal2

theorem claim_C5_witness :
    pyFindN ("foo ".toList) ("#(".toList) = none ∧
    block_remove_step ("#(".toList)
      ("foo ".toList ++ '#' :: '(' :: ("WIDTH(8)".toList ++ ')' :: " bar(...);".toList)) =
      some ("foo ".toList ++
        pyReplace (" bar(...);".toList) ('#' :: '(' :: ("WIDTH(8)".toList ++ [')'])) []) :=
  ⟨by decide,
   claim_C5.1 ("foo ".toList) ("WIDTH(8)".toList) (" bar(...);".toList)
     (by decide) (by decide) (by decide)⟩
